import Mathlib

set_option autoImplicit false

/-!
Verification of the RPC device lifecycle controller (aioshelly, rpc_device/device.py)
against its natural-language specification.

The JSON-like payloads exchanged with the device are modelled by the inductive
type JVal; Python dicts become ordered association lists, as Python dicts
preserve insertion order and have unique keys.  Stateful methods of RpcDevice
become pure functions from an explicit DeviceState (plus an environment
recording the outcomes of the external transport/prober calls) to a result
record carrying the new state, the exception raised if any, and a trace of the
RPC calls issued.
-/

/-- JSON-like value: the payload shape of device status/config/event mappings. -/
inductive JVal where
  | num : Int → JVal
  | str : String → JVal
  | boolean : Bool → JVal
  | null : JVal
  | obj : List (String × JVal) → JVal
deriving Repr

/-- First-match lookup in an ordered association list (Python `d.get(k)` / `d[k]`). -/
def lookupJ (k : String) : List (String × JVal) → Option JVal
  | [] => none
  | (k2, v) :: rest => if k2 = k then some v else lookupJ k rest

/-- Key-membership test (Python `k in d`). -/
def hasKey (k : String) (d : List (String × JVal)) : Bool :=
  (lookupJ k d).isSome

/-- Keys of an association list are pairwise distinct (always true of a Python dict). -/
def nodupKeysB : List (String × JVal) → Bool
  | [] => true
  | (k, _) :: rest => (! hasKey k rest) && nodupKeysB rest

mutual

/-- Every object nested inside the value has pairwise-distinct keys. -/
def wfV : JVal → Bool
  | JVal.obj m => nodupKeysB m && wfL m
  | _ => true

/-- Every value stored in the list is well-formed in the sense of `wfV`. -/
def wfL : List (String × JVal) → Bool
  | [] => true
  | (_, v) :: rest => wfV v && wfL rest

end

/-- A well-formed dict: distinct keys at top level and recursively below. -/
def wfDict (d : List (String × JVal)) : Bool :=
  nodupKeysB d && wfL d

mutual

/-- Value-level step of `mergedicts`: the incoming value wins unless both the
existing and the incoming value are mappings, in which case the two mappings
are merged recursively (device.py line 44-45). -/
def mergeJV : JVal → JVal → JVal
  | JVal.obj m1, JVal.obj m2 =>
      JVal.obj (mergeEntries m1 m2 ++ m2.filter (fun p => ! hasKey p.1 m1))
  | _, v2 => v2

/-- Entry-wise pass of `mergedicts` over the keys of the existing dict, in
order.  For a key also present in the update the merged value is
`mergeJV v1 v2`; for a key present only in the existing dict the source runs
`mergedicts(dict1[key], value)` with `value = dict1[key]` itself whenever both
are dicts, which is exactly `mergeJV v1 v1`. -/
def mergeEntries : List (String × JVal) → List (String × JVal) → List (String × JVal)
  | [], _ => []
  | (k, v1) :: rest, d2 =>
      (k, match lookupJ k d2 with
          | some v2 => mergeJV v1 v2
          | none => mergeJV v1 v1) :: mergeEntries rest d2

end

/-- Embedding of `mergedicts(dict1, dict2)` (device.py lines 39-46):
`result = dict(dict1); result.update(dict2)` lists the keys of `dict1` in
order followed by the new keys of `dict2` in order, and the loop then
replaces the value at each key where both sides hold a dict by the recursive
merge. -/
def mergedicts (d1 d2 : List (String × JVal)) : List (String × JVal) :=
  mergeEntries d1 d2 ++ d2.filter (fun p => ! hasKey p.1 d1)

mutual

/-- Associativity-safety of a value triple (existing, first update, second
update): false exactly when the existing value and the second update are
mappings at some common path while the first update overwrites that path with
a non-mapping. -/
def safeV : JVal → JVal → JVal → Bool
  | JVal.obj ms, JVal.obj m1, JVal.obj m2 => safeD ms m1 m2
  | JVal.obj _, _, JVal.obj _ => false
  | _, _, _ => true

/-- Entry-wise associativity-safety: constrains only keys present in the
existing dict and in both updates. -/
def safeD : List (String × JVal) → List (String × JVal) → List (String × JVal) → Bool
  | [], _, _ => true
  | (k, sv) :: rest, m1, m2 =>
      (match lookupJ k m1, lookupJ k m2 with
       | some a, some b => safeV sv a b
       | _, _ => true) && safeD rest m1 m2

end

/-- Modelled from the spec (section 4.3): the value the deep merge is claimed
to produce at one key, as a function of the existing and incoming values at
that key — recursive merge when both are mappings, otherwise the incoming
value, and the existing value where the update has no entry.  Used to compare
`mergedicts` against the specification. -/
def specMergeValue : Option JVal → Option JVal → Option JVal
  | some (JVal.obj m1), some (JVal.obj m2) => some (JVal.obj (mergedicts m1 m2))
  | _, some v2 => some v2
  | some v1, none => some v1
  | none, none => none

/-- Python truthiness of a JSON-like value (`bool(v)`). -/
def truthy : JVal → Bool
  | JVal.num n => n ≠ 0
  | JVal.str s => s ≠ ""
  | JVal.boolean b => b
  | JVal.null => false
  | JVal.obj d => ! d.isEmpty

/-- Python equality test of a JSON-like value against a string literal. -/
def isStr (v : JVal) (s : String) : Bool :=
  match v with
  | JVal.str t => t = s
  | _ => false

/-- The exception taxonomy visible in device.py: the aioshelly exception
classes plus the Python-level errors its code can raise.  `connectErr` stands
for the members of CONNECT_ERRORS other than DeviceConnectionError
(aiohttp.ClientError, asyncio.TimeoutError, OSError). -/
inductive ShellyErr where
  | notInitialized
  | invalidAuth
  | notSupported
  | wrongShellyGen
  | macMismatch
  | deviceConnection
  | rpcCall
  | connectErr
  | runtimeAlready
  | pyKeyError
  | pyTypeError
  | pyAttributeError
deriving Repr, DecidableEq

/-- Membership in CONNECT_ERRORS (const.py lines 8-13) as seen by the
`except` clauses of device.py. -/
def isConnectError : ShellyErr → Bool
  | ShellyErr.deviceConnection => true
  | ShellyErr.connectErr => true
  | _ => false

/-- RpcUpdateType (device.py lines 49-56). -/
inductive RpcUpdateType where
  | EVENT
  | STATUS
  | INITIALIZED
  | DISCONNECTED
  | UNKNOWN
deriving Repr, DecidableEq

/-- NOTIFY_WS_CLOSED (const.py line 118). -/
def notify_ws_closed : String := "NotifyWebSocketClosed"

/-- The credential-relevant part of ConnectionOptions. -/
structure ConnectionOptions where
  username : Option String
  password : Option String
deriving Repr, DecidableEq

/-- The mutable fields of RpcDevice (device.py lines 69-87) together with the
immutable options.  `updateListener` records whether `_update_listener` is set,
`unsubWs` whether `_unsub_ws` is set, and `wsConnected` the transport's
liveness flag `_wsrpc.connected`. -/
structure DeviceState where
  options : ConnectionOptions
  shelly : Option (List (String × JVal))
  status : Option (List (String × JVal))
  event : Option (List (String × JVal))
  config : Option (List (String × JVal))
  profiles : Option JVal
  initialized : Bool
  initializing : Bool
  lastError : Option ShellyErr
  updateListener : Bool
  unsubWs : Bool
  wsConnected : Bool
deriving Repr

/-- Outcome of `_on_notification` (device.py lines 111-135): the updated
state, the classified update type, whether a lazy background initialization
task was spawned, and whether the subscriber callback was invoked. -/
structure NotifyResult where
  state : DeviceState
  updateType : RpcUpdateType
  spawnedInit : Bool
  notifiedListener : Bool
deriving Repr

/-- Embedding of `_on_notification(method, params)` (device.py lines 111-135). -/
def on_notification (st : DeviceState) (method : String)
    (params : Option (List (String × JVal))) : NotifyResult :=
  let step : DeviceState × RpcUpdateType :=
    match params with
    | some ps =>
      if method = "NotifyFullStatus" then
        ({ st with status := some ps }, RpcUpdateType.STATUS)
      else if method = "NotifyStatus" ∧ st.status.isSome = true then
        ({ st with status := some (mergedicts (st.status.getD []) ps) },
         RpcUpdateType.STATUS)
      else if method = "NotifyEvent" then
        ({ st with event := some ps }, RpcUpdateType.EVENT)
      else (st, RpcUpdateType.UNKNOWN)
    | none =>
      if method = notify_ws_closed then (st, RpcUpdateType.DISCONNECTED)
      else (st, RpcUpdateType.UNKNOWN)
  let st1 := step.1
  if st1.initializing = false ∧ st1.initialized = false then
    { state := st1, updateType := step.2, spawnedInit := true, notifiedListener := false }
  else
    { state := st1, updateType := step.2, spawnedInit := false,
      notifiedListener := st1.updateListener && st1.initialized }

/-- The `status` property (device.py lines 361-370). -/
def RpcDevice.status (st : DeviceState) : Except ShellyErr (List (String × JVal)) :=
  if st.initialized = false then Except.error ShellyErr.notInitialized
  else match st.status with
    | none => Except.error ShellyErr.invalidAuth
    | some s => Except.ok s

/-- The `event` property (device.py lines 372-378). -/
def RpcDevice.event (st : DeviceState) : Except ShellyErr (Option (List (String × JVal))) :=
  if st.initialized = false then Except.error ShellyErr.notInitialized
  else Except.ok st.event

/-- The `config` property (device.py lines 380-389). -/
def RpcDevice.config (st : DeviceState) : Except ShellyErr (List (String × JVal)) :=
  if st.initialized = false then Except.error ShellyErr.notInitialized
  else match st.config with
    | none => Except.error ShellyErr.invalidAuth
    | some c => Except.ok c

/-- The `profiles` property (device.py lines 391-400); `"profile" not in None`
raises a Python TypeError. -/
def RpcDevice.profiles (st : DeviceState) : Except ShellyErr (Option JVal) :=
  if st.initialized = false then Except.error ShellyErr.notInitialized
  else match st.shelly with
    | none => Except.error ShellyErr.pyTypeError
    | some sh =>
      if hasKey "profile" sh = false then Except.error ShellyErr.notSupported
      else Except.ok st.profiles

/-- The `profile` property (device.py lines 402-411). -/
def RpcDevice.profile (st : DeviceState) : Except ShellyErr JVal :=
  if st.initialized = false then Except.error ShellyErr.notInitialized
  else match st.shelly with
    | none => Except.error ShellyErr.pyTypeError
    | some sh =>
      match lookupJ "profile" sh with
      | none => Except.error ShellyErr.notSupported
      | some v => Except.ok v

/-- The `shelly` (identity) property (device.py lines 413-419): it tests
`_shelly is None`, not the `initialized` flag. -/
def RpcDevice.shelly (st : DeviceState) : Except ShellyErr (List (String × JVal)) :=
  match st.shelly with
  | none => Except.error ShellyErr.notInitialized
  | some sh => Except.ok sh

/-- The `connected` property (device.py lines 451-454): a plain read of the
transport's liveness flag, with no readiness check. -/
def RpcDevice.connected (st : DeviceState) : Except ShellyErr Bool :=
  Except.ok st.wsConnected

/-- The `last_error` property (device.py lines 456-459): a plain read, with no
readiness check. -/
def RpcDevice.last_error (st : DeviceState) : Except ShellyErr (Option ShellyErr) :=
  Except.ok st.lastError

/-- Error bookkeeping of `call_rpc` (device.py lines 347-359) applied to the
outcome of one RPC call. -/
def call_rpc (st : DeviceState) (res : Except ShellyErr (List (String × JVal))) :
    DeviceState × Except ShellyErr (List (String × JVal)) :=
  match res with
  | Except.ok v => (st, Except.ok v)
  | Except.error e =>
    if e = ShellyErr.invalidAuth ∨ e = ShellyErr.rpcCall then
      ({ st with lastError := some e }, Except.error e)
    else if isConnectError e then
      ({ st with lastError := some ShellyErr.deviceConnection },
       Except.error ShellyErr.deviceConnection)
    else (st, Except.error e)

/-- Outcomes of the external calls performed during one run of `initialize`. -/
structure InitEnv where
  get_info : Except ShellyErr (List (String × JVal))
  connect : Except ShellyErr Unit
  getConfig : Except ShellyErr (List (String × JVal))
  listProfiles : Except ShellyErr (List (String × JVal))
  getStatus : Except ShellyErr (List (String × JVal))
deriving Repr

/-- Result of the `try`-block of `initialize`. -/
structure BodyResult where
  state : DeviceState
  result : Except ShellyErr Unit
  calls : List String
deriving Repr

/-- Result of one invocation of `initialize`: final state, the exception that
propagated (if any), whether the INITIALIZED update was delivered to the
subscriber, whether `_disconnect_websocket` ran, and the trace of RPC methods
called. -/
structure InitResult where
  state : DeviceState
  raised : Option ShellyErr
  notifiedListener : Bool
  disconnected : Bool
  calls : List String
deriving Repr

/-- `_disconnect_websocket` (device.py lines 211-217). -/
def disconnect_websocket (st : DeviceState) : DeviceState :=
  { st with unsubWs := false, wsConnected := false }

/-- `shutdown` (device.py lines 201-209). -/
def shutdown (st : DeviceState) : DeviceState :=
  disconnect_websocket { st with updateListener := false }

/-- The authentication step of `initialize` (device.py lines 155-163): when
the probed identity requires auth, missing credentials raise InvalidAuthError
and the identity's `auth_domain` is read (a missing key raises KeyError); the
transport's auth data setter itself is external and records no state here. -/
def auth_step (opts : ConnectionOptions) (info : List (String × JVal)) (authv : JVal) :
    Except ShellyErr Unit :=
  if truthy authv then
    if opts.username = none ∨ opts.password = none then
      Except.error ShellyErr.invalidAuth
    else
      match lookupJ "auth_domain" info with
      | none => Except.error ShellyErr.pyKeyError
      | some _ => Except.ok ()
  else Except.ok ()

/-- The `update_profiles` step of `initialize` (device.py lines 240-243):
issued only when the identity declares profile support; the response is
indexed at `profiles` (a missing key raises KeyError). -/
def profiles_step (env : InitEnv) (info : List (String × JVal)) (st : DeviceState) :
    DeviceState × Except ShellyErr Unit × List String :=
  if hasKey "profile" info then
    match call_rpc st env.listProfiles with
    | (s, Except.error e) => (s, Except.error e, ["Shelly.ListProfiles"])
    | (s, Except.ok resp) =>
      match lookupJ "profiles" resp with
      | none => (s, Except.error ShellyErr.pyKeyError, ["Shelly.ListProfiles"])
      | some pv => ({ s with profiles := some pv }, Except.ok (), ["Shelly.ListProfiles"])
  else (st, Except.ok (), [])

/-- The `try`-block of `initialize` (device.py lines 150-173): probe identity,
handle authentication, connect, fetch config, fetch profiles when the identity
declares profile support, and fetch the full status unless this is a lazy call
and a status is already cached. -/
def initialize_body (env : InitEnv) (st : DeviceState) (async_init : Bool) : BodyResult :=
  match env.get_info with
  | Except.error e => { state := st, result := Except.error e, calls := [] }
  | Except.ok info =>
    let st1 := { st with shelly := some info }
    match lookupJ "auth_en" info with
    | none => { state := st1, result := Except.error ShellyErr.wrongShellyGen, calls := [] }
    | some authv =>
      match auth_step st1.options info authv with
      | Except.error e => { state := st1, result := Except.error e, calls := [] }
      | Except.ok _ =>
        match env.connect with
        | Except.error e => { state := st1, result := Except.error e, calls := [] }
        | Except.ok _ =>
          let st2 := { st1 with wsConnected := true }
          match call_rpc st2 env.getConfig with
          | (st3, Except.error e) =>
            { state := st3, result := Except.error e, calls := ["Shelly.GetConfig"] }
          | (st3, Except.ok cfg) =>
            let st4 := { st3 with config := some cfg }
            match profiles_step env info st4 with
            | (st5, Except.error e, cs) =>
              { state := st5, result := Except.error e, calls := "Shelly.GetConfig" :: cs }
            | (st5, Except.ok _, cs) =>
              if async_init = false ∨ st5.status.isNone = true then
                match call_rpc st5 env.getStatus with
                | (st6, Except.error e) =>
                  { state := st6, result := Except.error e,
                    calls := "Shelly.GetConfig" :: cs ++ ["Shelly.GetStatus"] }
                | (st6, Except.ok sv) =>
                  { state := { st6 with status := some sv, initialized := true },
                    result := Except.ok (),
                    calls := "Shelly.GetConfig" :: cs ++ ["Shelly.GetStatus"] }
              else
                { state := { st5 with initialized := true }, result := Except.ok (),
                  calls := "Shelly.GetConfig" :: cs }

/-- Embedding of `initialize(async_init)` (device.py lines 142-199): the
non-reentrancy guard, the `try`-block, the three `except` handlers, the
`finally` clause clearing `_initializing`, and the final subscriber
notification. -/
def initialize_dev (env : InitEnv) (st : DeviceState) (async_init : Bool) : InitResult :=
  if st.initializing then
    { state := st, raised := some ShellyErr.runtimeAlready, notifiedListener := false,
      disconnected := false, calls := [] }
  else
    let stA := { st with initializing := true, initialized := false }
    let b := initialize_body env stA async_init
    let handled : DeviceState × Option ShellyErr × Bool :=
      match b.result with
      | Except.ok _ => (b.state, none, false)
      | Except.error ShellyErr.invalidAuth =>
        let s := { b.state with lastError := some ShellyErr.invalidAuth }
        if async_init = false then (disconnect_websocket s, some ShellyErr.invalidAuth, true)
        else ({ s with initialized := true }, none, false)
      | Except.error ShellyErr.macMismatch =>
        let s := { b.state with lastError := some ShellyErr.macMismatch }
        if async_init = false then (disconnect_websocket s, some ShellyErr.macMismatch, true)
        else (s, none, false)
      | Except.error e =>
        if isConnectError e ∨ e = ShellyErr.rpcCall then
          let s := { b.state with lastError := some ShellyErr.deviceConnection }
          if async_init = false then (disconnect_websocket s, some ShellyErr.deviceConnection, true)
          else (s, none, false)
        else (b.state, some e, false)
    let stF := { handled.1 with initializing := false }
    if handled.2.1 = none ∧ stF.updateListener = true ∧ stF.initialized = true then
      { state := stF, raised := none, notifiedListener := true,
        disconnected := handled.2.2, calls := b.calls }
    else
      { state := stF, raised := handled.2.1, notifiedListener := false,
        disconnected := handled.2.2, calls := b.calls }

/-- Outcomes of the external calls performed during `set_profile`: the
SetProfile RPC, the stream of identity re-probes of the reboot-wait loop, and
the environment of the final re-initialization. -/
structure SetProfileEnv where
  setProfileCall : Except ShellyErr (List (String × JVal))
  probes : List (Except ShellyErr (List (String × JVal)))
  init : InitEnv
deriving Repr

/-- Result of `set_profile`; `none` models divergence of the unbounded
reboot-wait loop. -/
structure SetProfileResult where
  state : DeviceState
  raised : Option ShellyErr
  calls : List String
deriving Repr

/-- The reboot-wait loop of `set_profile` (device.py lines 254-258): while the
cached identity's profile differs from the requested name, re-probe and
replace the identity; missing identity or key raises in Python. -/
def profile_wait_loop (name : String)
    (probes : List (Except ShellyErr (List (String × JVal))))
    (st : DeviceState) : Option (DeviceState × Option ShellyErr) :=
  match st.shelly with
  | none => some (st, some ShellyErr.pyTypeError)
  | some sh =>
    match lookupJ "profile" sh with
    | none => some (st, some ShellyErr.pyKeyError)
    | some v =>
      if isStr v name then some (st, none)
      else
        match probes with
        | [] => none
        | Except.error e :: _ => some (st, some e)
        | Except.ok info :: rest => profile_wait_loop name rest { st with shelly := some info }

/-- Embedding of `set_profile(profile_name)` (device.py lines 245-259): a
no-op unless the cached identity holds a truthy profile different from the
requested name; otherwise issue the SetProfile RPC, shut down, wait for the
re-probed identity to report the new profile, and re-run `initialize`. -/
def set_profile (env : SetProfileEnv) (st : DeviceState) (name : String) :
    Option SetProfileResult :=
  match st.shelly with
  | none => some { state := st, raised := some ShellyErr.pyAttributeError, calls := [] }
  | some sh =>
    let guard : Bool :=
      match lookupJ "profile" sh with
      | none => false
      | some v => truthy v && ! isStr v name
    if guard = false then some { state := st, raised := none, calls := [] }
    else
      match call_rpc st env.setProfileCall with
      | (st1, Except.error e) =>
        some { state := st1, raised := some e, calls := ["Shelly.SetProfile"] }
      | (st1, Except.ok _) =>
        let st2 := shutdown st1
        match profile_wait_loop name env.probes st2 with
        | none => none
        | some (st3, some e) =>
          some { state := st3, raised := some e, calls := ["Shelly.SetProfile"] }
        | some (st3, none) =>
          let r := initialize_dev env.init st3 false
          some { state := r.state, raised := r.raised, calls := "Shelly.SetProfile" :: r.calls }

/-- A freshly constructed, never-initialized device state (device.py lines 62-87). -/
def freshState : DeviceState :=
  { options := { username := none, password := none }
    shelly := none, status := none, event := none, config := none, profiles := none
    initialized := false, initializing := false, lastError := none
    updateListener := false, unsubWs := true, wsConnected := false }

/-- A device state in the middle of an initialize call. -/
def busyState : DeviceState :=
  { freshState with initializing := true }

/-- An environment in which every external call succeeds and the identity
declares no authentication requirement and no profile support. -/
def plainEnv : InitEnv :=
  { get_info := Except.ok [("auth_en", JVal.boolean false)]
    connect := Except.ok ()
    getConfig := Except.ok [("sys", JVal.obj [])]
    listProfiles := Except.ok [("profiles", JVal.obj [])]
    getStatus := Except.ok [("sys", JVal.obj [])] }

/-! ## Basic lemmas on lookups, keys and filters -/

theorem jval_sizeOf_pos (v : JVal) : 0 < sizeOf v := by
  cases v <;> simp

theorem sizeOf_obj_eq (m : List (String × JVal)) : sizeOf (JVal.obj m) = 1 + sizeOf m := by
  simp

theorem sizeOf_cons_eq (k : String) (v : JVal) (r : List (String × JVal)) :
    sizeOf ((k, v) :: r) = 1 + (1 + sizeOf k + sizeOf v) + sizeOf r := by
  simp

/-- Mutual induction principle for `JVal` and entry lists, derived by strong
induction on sizes. -/
theorem jval_mutual_ind (P : JVal → Prop) (Q : List (String × JVal) → Prop)
    (hnum : ∀ n, P (JVal.num n))
    (hstr : ∀ s, P (JVal.str s))
    (hbool : ∀ b, P (JVal.boolean b))
    (hnull : P JVal.null)
    (hobj : ∀ m, Q m → P (JVal.obj m))
    (hnil : Q [])
    (hcons : ∀ k v r, P v → Q r → Q ((k, v) :: r)) :
    (∀ v, P v) ∧ (∀ m, Q m) := by
  have key : ∀ n : Nat, (∀ v : JVal, sizeOf v ≤ n → P v) ∧
      (∀ m : List (String × JVal), sizeOf m ≤ n → Q m) := by
    intro n
    induction n with
    | zero =>
      constructor
      · intro v hv; exfalso; cases v <;> simp at hv
      · intro m hm; exfalso
        cases m with
        | nil => simp at hm
        | cons p r => simp at hm
    | succ n ih =>
      constructor
      · intro v hv
        cases v with
        | num a => exact hnum a
        | str a => exact hstr a
        | boolean a => exact hbool a
        | null => exact hnull
        | obj m =>
          apply hobj
          apply ih.2
          have := sizeOf_obj_eq m
          omega
      · intro m hm
        cases m with
        | nil => exact hnil
        | cons p r =>
          obtain ⟨k, v⟩ := p
          apply hcons
          · apply ih.1
            have := sizeOf_cons_eq k v r
            omega
          · apply ih.2
            have := sizeOf_cons_eq k v r
            have h2 : (1:Nat) ≤ sizeOf v := jval_sizeOf_pos v
            omega
  constructor
  · intro v; exact (key (sizeOf v)).1 v le_rfl
  · intro m; exact (key (sizeOf m)).2 m le_rfl

theorem hasKey_cons (k k2 : String) (w : JVal) (rest : List (String × JVal)) :
    hasKey k ((k2, w) :: rest) = if k2 = k then true else hasKey k rest := by
  simp only [hasKey, lookupJ]
  split <;> simp

theorem hasKey_nil (k : String) : hasKey k [] = false := rfl

theorem hasKey_eq_false_iff (k : String) (l : List (String × JVal)) :
    hasKey k l = false ↔ lookupJ k l = none := by
  simp only [hasKey]
  cases lookupJ k l <;> simp

theorem hasKey_of_mem {k : String} {v : JVal} {l : List (String × JVal)}
    (h : (k, v) ∈ l) : hasKey k l = true := by
  induction l with
  | nil => simp at h
  | cons p rest ih =>
    obtain ⟨k2, w⟩ := p
    rw [hasKey_cons]
    rcases List.mem_cons.mp h with h1 | h1
    · have hk : k2 = k := (Prod.mk.inj h1.symm).1
      rw [if_pos hk]
    · rw [ih h1]
      split <;> rfl

theorem lookupJ_append_some {k : String} {l1 l2 : List (String × JVal)} {v : JVal}
    (h : lookupJ k l1 = some v) : lookupJ k (l1 ++ l2) = some v := by
  induction l1 with
  | nil => simp [lookupJ] at h
  | cons p rest ih =>
    obtain ⟨k2, w⟩ := p
    simp only [List.cons_append, lookupJ] at h ⊢
    by_cases hk : k2 = k
    · simpa [hk] using h
    · rw [if_neg hk] at h ⊢
      exact ih h

theorem lookupJ_append_none {k : String} {l1 l2 : List (String × JVal)}
    (h : lookupJ k l1 = none) : lookupJ k (l1 ++ l2) = lookupJ k l2 := by
  induction l1 with
  | nil => simp [lookupJ]
  | cons p rest ih =>
    obtain ⟨k2, w⟩ := p
    simp only [List.cons_append, lookupJ] at h ⊢
    by_cases hk : k2 = k
    · rw [if_pos hk] at h; cases h
    · rw [if_neg hk] at h ⊢
      exact ih h

theorem lookupJ_mergeEntries_some {k : String} {d1 d2 : List (String × JVal)} {v1 : JVal}
    (h : lookupJ k d1 = some v1) :
    lookupJ k (mergeEntries d1 d2) =
      some (match lookupJ k d2 with
            | some v2 => mergeJV v1 v2
            | none => mergeJV v1 v1) := by
  induction d1 with
  | nil => simp [lookupJ] at h
  | cons p rest ih =>
    obtain ⟨k2, w⟩ := p
    simp only [lookupJ, mergeEntries] at h ⊢
    by_cases hk : k2 = k
    · rw [if_pos hk] at h
      cases h
      subst hk
      rw [if_pos rfl]
    · rw [if_neg hk] at h ⊢
      exact ih h

theorem lookupJ_mergeEntries_none {k : String} {d1 d2 : List (String × JVal)}
    (h : lookupJ k d1 = none) : lookupJ k (mergeEntries d1 d2) = none := by
  induction d1 with
  | nil => simp [mergeEntries, lookupJ]
  | cons p rest ih =>
    obtain ⟨k2, w⟩ := p
    simp only [lookupJ, mergeEntries] at h ⊢
    by_cases hk : k2 = k
    · rw [if_pos hk] at h; cases h
    · rw [if_neg hk] at h ⊢
      exact ih h

theorem lookupJ_filter_key {P : String → Bool} {k : String} (h : P k = true) :
    ∀ l : List (String × JVal),
      lookupJ k (l.filter (fun p => P p.1)) = lookupJ k l := by
  intro l
  induction l with
  | nil => simp
  | cons p rest ih =>
    obtain ⟨k2, w⟩ := p
    by_cases hP : P k2 = true
    · rw [List.filter_cons_of_pos (by simpa using hP)]
      simp only [lookupJ]
      split <;> [rfl; exact ih]
    · rw [List.filter_cons_of_neg (by simpa using hP)]
      have hk : ¬ k2 = k := by
        intro hkk; exact hP (hkk ▸ h)
      simp only [lookupJ, if_neg hk]
      exact ih

theorem hasKey_append (k : String) (l1 l2 : List (String × JVal)) :
    hasKey k (l1 ++ l2) = (hasKey k l1 || hasKey k l2) := by
  induction l1 with
  | nil => simp [hasKey, lookupJ]
  | cons p rest ih =>
    obtain ⟨k2, w⟩ := p
    rw [List.cons_append, hasKey_cons, hasKey_cons]
    split <;> simp [ih]

theorem hasKey_mergeEntries (k : String) (l d2 : List (String × JVal)) :
    hasKey k (mergeEntries l d2) = hasKey k l := by
  induction l with
  | nil => rfl
  | cons p rest ih =>
    obtain ⟨k2, w⟩ := p
    simp only [mergeEntries]
    rw [hasKey_cons, hasKey_cons, ih]

theorem hasKey_filter_key (P : String → Bool) (k : String) (l : List (String × JVal)) :
    hasKey k (l.filter (fun p => P p.1)) = (hasKey k l && P k) := by
  induction l with
  | nil => simp [hasKey, lookupJ]
  | cons p rest ih =>
    obtain ⟨k2, w⟩ := p
    by_cases hP : P k2 = true
    · rw [List.filter_cons_of_pos (by simpa using hP)]
      rw [hasKey_cons, hasKey_cons]
      by_cases hk : k2 = k
      · rw [if_pos hk, if_pos hk]
        subst hk
        simp [hP]
      · rw [if_neg hk, if_neg hk]
        exact ih
    · rw [List.filter_cons_of_neg (by simpa using hP)]
      rw [hasKey_cons]
      by_cases hk : k2 = k
      · rw [if_pos hk]
        subst hk
        have : P k2 = false := by simpa using hP
        simp [this, ih]
      · rw [if_neg hk]
        exact ih

theorem hasKey_mergedicts (k : String) (d1 d2 : List (String × JVal)) :
    hasKey k (mergedicts d1 d2) = (hasKey k d1 || hasKey k d2) := by
  unfold mergedicts
  rw [hasKey_append, hasKey_mergeEntries, hasKey_filter_key (fun s => ! hasKey s d1) k d2]
  cases h1 : hasKey k d1 <;> simp

theorem wfL_lookup {l : List (String × JVal)} {k : String} {v : JVal}
    (hw : wfL l = true) (h : lookupJ k l = some v) : wfV v = true := by
  induction l with
  | nil => simp [lookupJ] at h
  | cons p rest ih =>
    obtain ⟨k2, w⟩ := p
    simp only [wfL, Bool.and_eq_true] at hw
    simp only [lookupJ] at h
    by_cases hk : k2 = k
    · rw [if_pos hk] at h; cases h; exact hw.1
    · rw [if_neg hk] at h; exact ih hw.2 h

theorem mergeEntries_congr {l d2 d2' : List (String × JVal)}
    (h : ∀ k, hasKey k l = true → lookupJ k d2 = lookupJ k d2') :
    mergeEntries l d2 = mergeEntries l d2' := by
  induction l with
  | nil => rfl
  | cons p rest ih =>
    obtain ⟨k2, w⟩ := p
    have hk2 : lookupJ k2 d2 = lookupJ k2 d2' := by
      apply h
      rw [hasKey_cons, if_pos rfl]
    simp only [mergeEntries]
    rw [hk2]
    congr 1
    apply ih
    intro k hk
    apply h
    rw [hasKey_cons, hk]
    split <;> rfl

/-! ## Self-merge, well-formedness preservation, lookup characterization -/

theorem mergeJV_obj_obj (m1 m2 : List (String × JVal)) :
    mergeJV (JVal.obj m1) (JVal.obj m2) = JVal.obj (mergedicts m1 m2) := rfl

theorem filter_not_hasKey_self (m : List (String × JVal)) :
    m.filter (fun p => ! hasKey p.1 m) = [] := by
  rw [List.filter_eq_nil_iff]
  intro p hp
  obtain ⟨k, v⟩ := p
  simp [hasKey_of_mem hp]

/-- Merging a well-formed value with itself gives the value back; this is the
behaviour of the source's `mergedicts(dict1[key], value)` call on keys absent
from the update. -/
theorem merge_self_all :
    (∀ v, wfV v = true → mergeJV v v = v) ∧
    (∀ m, nodupKeysB m = true → wfL m = true → mergeEntries m m = m) := by
  apply jval_mutual_ind
    (P := fun v => wfV v = true → mergeJV v v = v)
    (Q := fun m => nodupKeysB m = true → wfL m = true → mergeEntries m m = m)
  · intro n _; rfl
  · intro s _; rfl
  · intro b _; rfl
  · intro _; rfl
  · intro m ihm hwf
    simp only [wfV, Bool.and_eq_true] at hwf
    rw [mergeJV_obj_obj]
    unfold mergedicts
    rw [ihm hwf.1 hwf.2, filter_not_hasKey_self, List.append_nil]
  · intro _ _; rfl
  · intro k v r Pv Qr hnd hwf
    simp only [nodupKeysB, Bool.and_eq_true] at hnd
    simp only [wfL, Bool.and_eq_true] at hwf
    have hl : lookupJ k ((k, v) :: r) = some v := by
      simp [lookupJ]
    simp only [mergeEntries, hl]
    have htail : mergeEntries r ((k, v) :: r) = mergeEntries r r := by
      apply mergeEntries_congr
      intro k2 hk2
      have hkk : ¬ k = k2 := by
        intro hkk
        subst hkk
        rw [hk2] at hnd
        simp at hnd
      simp only [lookupJ, if_neg hkk]
    rw [htail, Qr hnd.2 hwf.2, Pv hwf.1]

theorem mergeJV_self {v : JVal} (h : wfV v = true) : mergeJV v v = v :=
  merge_self_all.1 v h

theorem nodupKeysB_append {l1 l2 : List (String × JVal)}
    (h1 : nodupKeysB l1 = true) (h2 : nodupKeysB l2 = true)
    (hcross : ∀ k, hasKey k l1 = true → hasKey k l2 = false) :
    nodupKeysB (l1 ++ l2) = true := by
  induction l1 with
  | nil => simpa using h2
  | cons p rest ih =>
    obtain ⟨k, w⟩ := p
    simp only [nodupKeysB, Bool.and_eq_true] at h1
    have hk1 : hasKey k ((k, w) :: rest) = true := by
      rw [hasKey_cons, if_pos rfl]
    simp only [List.cons_append, nodupKeysB, Bool.and_eq_true, List.append_eq]
    constructor
    · rw [hasKey_append]
      have hr : hasKey k rest = false := by simpa using h1.1
      rw [hr, hcross k hk1]
      rfl
    · apply ih h1.2
      intro k2 hk2
      apply hcross
      rw [hasKey_cons, hk2]
      split <;> rfl

theorem nodupKeysB_mergeEntries {l : List (String × JVal)} (d2 : List (String × JVal))
    (h : nodupKeysB l = true) : nodupKeysB (mergeEntries l d2) = true := by
  induction l with
  | nil => rfl
  | cons p rest ih =>
    obtain ⟨k, w⟩ := p
    simp only [nodupKeysB, Bool.and_eq_true] at h
    simp only [mergeEntries, nodupKeysB, Bool.and_eq_true]
    refine ⟨?_, ih h.2⟩
    rw [hasKey_mergeEntries]
    exact h.1

theorem hasKey_filter_imp {k : String} {P : (String × JVal) → Bool}
    {l : List (String × JVal)} (h : hasKey k (l.filter P) = true) :
    hasKey k l = true := by
  induction l with
  | nil => simpa using h
  | cons p rest ih =>
    obtain ⟨k2, w⟩ := p
    rw [hasKey_cons]
    by_cases hP : P (k2, w) = true
    · rw [List.filter_cons_of_pos hP, hasKey_cons] at h
      by_cases hk : k2 = k
      · rw [if_pos hk]
      · rw [if_neg hk] at h ⊢
        exact ih h
    · rw [List.filter_cons_of_neg (by simpa using hP)] at h
      rw [ih h]
      split <;> rfl

theorem nodupKeysB_filter {l : List (String × JVal)} (P : (String × JVal) → Bool)
    (h : nodupKeysB l = true) : nodupKeysB (l.filter P) = true := by
  induction l with
  | nil => rfl
  | cons p rest ih =>
    obtain ⟨k, w⟩ := p
    simp only [nodupKeysB, Bool.and_eq_true] at h
    by_cases hP : P (k, w) = true
    · rw [List.filter_cons_of_pos hP]
      simp only [nodupKeysB, Bool.and_eq_true]
      refine ⟨?_, ih h.2⟩
      have hr : hasKey k rest = false := by simpa using h.1
      by_cases hf : hasKey k (rest.filter P) = true
      · rw [hasKey_filter_imp hf] at hr
        cases hr
      · simpa using hf
    · rw [List.filter_cons_of_neg (by simpa using hP)]
      exact ih h.2

theorem wfL_append {l1 l2 : List (String × JVal)}
    (h1 : wfL l1 = true) (h2 : wfL l2 = true) : wfL (l1 ++ l2) = true := by
  induction l1 with
  | nil => simpa using h2
  | cons p rest ih =>
    obtain ⟨k, w⟩ := p
    simp only [wfL, Bool.and_eq_true] at h1
    simp only [List.cons_append, wfL, Bool.and_eq_true]
    exact ⟨h1.1, ih h1.2⟩

theorem wfL_filter {l : List (String × JVal)} (P : (String × JVal) → Bool)
    (h : wfL l = true) : wfL (l.filter P) = true := by
  induction l with
  | nil => rfl
  | cons p rest ih =>
    obtain ⟨k, w⟩ := p
    simp only [wfL, Bool.and_eq_true] at h
    by_cases hP : P (k, w) = true
    · rw [List.filter_cons_of_pos hP]
      simp only [wfL, Bool.and_eq_true]
      exact ⟨h.1, ih h.2⟩
    · rw [List.filter_cons_of_neg (by simpa using hP)]
      exact ih h.2

/-- Well-formedness is preserved by the merge. -/
theorem merge_wf_all :
    (∀ v, ∀ u, wfV v = true → wfV u = true → wfV (mergeJV v u) = true) ∧
    (∀ m, ∀ d2, wfL m = true → wfL d2 = true → wfL (mergeEntries m d2) = true) := by
  apply jval_mutual_ind
    (P := fun v => ∀ u, wfV v = true → wfV u = true → wfV (mergeJV v u) = true)
    (Q := fun m => ∀ d2, wfL m = true → wfL d2 = true → wfL (mergeEntries m d2) = true)
  · intro n u _ h2; exact h2
  · intro s u _ h2; exact h2
  · intro b u _ h2; exact h2
  · intro u _ h2; exact h2
  · intro m ihm u h1 h2
    cases u with
    | num a => exact h2
    | str a => exact h2
    | boolean a => exact h2
    | null => exact h2
    | obj m2 =>
      simp only [wfV, Bool.and_eq_true] at h1 h2
      rw [mergeJV_obj_obj]
      unfold mergedicts
      simp only [wfV, Bool.and_eq_true]
      constructor
      · apply nodupKeysB_append (nodupKeysB_mergeEntries m2 h1.1)
          (nodupKeysB_filter _ h2.1)
        intro k hk
        rw [hasKey_mergeEntries] at hk
        rw [hasKey_filter_key (fun s => ! hasKey s m) k m2, hk]
        simp
      · exact wfL_append (ihm m2 h1.2 h2.2) (wfL_filter _ h2.2)
  · intro d2 _ _; rfl
  · intro k v r Pv Qr d2 hw hw2
    simp only [wfL, Bool.and_eq_true] at hw
    simp only [mergeEntries, wfL, Bool.and_eq_true]
    refine ⟨?_, Qr d2 hw.2 hw2⟩
    cases h2 : lookupJ k d2 with
    | some v2 => exact Pv v2 hw.1 (wfL_lookup hw2 h2)
    | none => exact Pv v hw.1 hw.1

theorem mergeJV_wf {v u : JVal} (h1 : wfV v = true) (h2 : wfV u = true) :
    wfV (mergeJV v u) = true :=
  merge_wf_all.1 v u h1 h2

theorem specMergeValue_some_some (v1 v2 : JVal) :
    specMergeValue (some v1) (some v2) = some (mergeJV v1 v2) := by
  cases v1 <;> cases v2 <;> rfl

theorem specMergeValue_some_none {v1 : JVal} :
    specMergeValue (some v1) none = some v1 := by
  cases v1 <;> rfl

theorem specMergeValue_none (o : Option JVal) :
    specMergeValue none o = o := by
  cases o with
  | none => rfl
  | some v => cases v <;> rfl

/-- Key-wise characterization of `mergedicts` against the specification's
description of the deep merge. -/
theorem lookupJ_mergedicts {d1 : List (String × JVal)} (d2 : List (String × JVal))
    (h : wfL d1 = true) (k : String) :
    lookupJ k (mergedicts d1 d2) = specMergeValue (lookupJ k d1) (lookupJ k d2) := by
  unfold mergedicts
  cases h1 : lookupJ k d1 with
  | some v1 =>
    rw [lookupJ_append_some (lookupJ_mergeEntries_some h1)]
    cases h2 : lookupJ k d2 with
    | some v2 =>
      rw [specMergeValue_some_some]
    | none =>
      rw [specMergeValue_some_none, mergeJV_self (wfL_lookup h h1)]
  | none =>
    have hk : hasKey k d1 = false := by
      rw [hasKey_eq_false_iff]; exact h1
    rw [lookupJ_append_none (lookupJ_mergeEntries_none h1)]
    rw [lookupJ_filter_key (P := fun s => ! hasKey s d1) (by simp [hk]) d2]
    rw [specMergeValue_none]

/-! ## Associativity of the deep merge on safe triples -/

theorem mergeEntries_append (l1 l2 d : List (String × JVal)) :
    mergeEntries (l1 ++ l2) d = mergeEntries l1 d ++ mergeEntries l2 d := by
  induction l1 with
  | nil => rfl
  | cons p rest ih =>
    obtain ⟨k, v⟩ := p
    simp only [List.cons_append, mergeEntries, List.append_eq, ih]

theorem mergeEntries_filter_key (P : String → Bool) (l d : List (String × JVal)) :
    mergeEntries (l.filter (fun p => P p.1)) d =
      (mergeEntries l d).filter (fun p => P p.1) := by
  induction l with
  | nil => rfl
  | cons p rest ih =>
    obtain ⟨k, v⟩ := p
    by_cases hP : P k = true
    · rw [List.filter_cons_of_pos (by simpa using hP)]
      simp only [mergeEntries]
      rw [List.filter_cons_of_pos (by simpa using hP), ih]
    · rw [List.filter_cons_of_neg (by simpa using hP)]
      simp only [mergeEntries]
      rw [List.filter_cons_of_neg (by simpa using hP), ih]

/-- Dict-level associativity follows from entry-level associativity: the two
filter segments of the two sides coincide by pure key bookkeeping. -/
theorem mergedicts_assoc_of_entries {S U1 U2 : List (String × JVal)}
    (hq : mergeEntries (mergeEntries S U1) U2 = mergeEntries S (mergedicts U1 U2)) :
    mergedicts (mergedicts S U1) U2 = mergedicts S (mergedicts U1 U2) := by
  have hL0 : mergedicts (mergedicts S U1) U2 =
      mergeEntries (mergedicts S U1) U2 ++
        U2.filter (fun p => ! hasKey p.1 (mergedicts S U1)) := rfl
  have hR0 : mergedicts S (mergedicts U1 U2) =
      mergeEntries S (mergedicts U1 U2) ++
        (mergedicts U1 U2).filter (fun p => ! hasKey p.1 S) := rfl
  have hL1 : mergeEntries (mergedicts S U1) U2 =
      mergeEntries S (mergedicts U1 U2) ++
        (mergeEntries U1 U2).filter (fun p => ! hasKey p.1 S) := by
    have h0 : mergedicts S U1 =
        mergeEntries S U1 ++ U1.filter (fun p => ! hasKey p.1 S) := rfl
    rw [h0, mergeEntries_append, hq,
      mergeEntries_filter_key (fun s => ! hasKey s S) U1 U2]
  have hL2 : U2.filter (fun p => ! hasKey p.1 (mergedicts S U1)) =
      (U2.filter (fun p => ! hasKey p.1 U1)).filter (fun p => ! hasKey p.1 S) := by
    rw [List.filter_filter]
    apply List.filter_congr
    intro p _
    rw [hasKey_mergedicts]
    cases hS : hasKey p.1 S <;> cases hU1 : hasKey p.1 U1 <;> rfl
  have hR1 : (mergedicts U1 U2).filter (fun p => ! hasKey p.1 S) =
      (mergeEntries U1 U2).filter (fun p => ! hasKey p.1 S) ++
        (U2.filter (fun p => ! hasKey p.1 U1)).filter (fun p => ! hasKey p.1 S) := by
    have h0 : mergedicts U1 U2 =
        mergeEntries U1 U2 ++ U2.filter (fun p => ! hasKey p.1 U1) := rfl
    rw [h0, List.filter_append]
  rw [hL0, hR0, hL1, hL2, hR1, List.append_assoc]

/-- Entry-level and value-level associativity of the merge on safe,
well-formed triples. -/
theorem merge_assoc_all :
    (∀ s, ∀ u1 u2 : JVal, wfV s = true → wfV u1 = true → wfV u2 = true →
      safeV s u1 u2 = true →
      mergeJV (mergeJV s u1) u2 = mergeJV s (mergeJV u1 u2)) ∧
    (∀ S, ∀ U1 U2 : List (String × JVal), wfL S = true → wfDict U1 = true →
      wfDict U2 = true → safeD S U1 U2 = true →
      mergeEntries (mergeEntries S U1) U2 = mergeEntries S (mergedicts U1 U2)) := by
  apply jval_mutual_ind
    (P := fun s => ∀ u1 u2 : JVal, wfV s = true → wfV u1 = true → wfV u2 = true →
      safeV s u1 u2 = true →
      mergeJV (mergeJV s u1) u2 = mergeJV s (mergeJV u1 u2))
    (Q := fun S => ∀ U1 U2 : List (String × JVal), wfL S = true → wfDict U1 = true →
      wfDict U2 = true → safeD S U1 U2 = true →
      mergeEntries (mergeEntries S U1) U2 = mergeEntries S (mergedicts U1 U2))
  · intro n u1 u2 _ _ _ _; cases u1 <;> cases u2 <;> rfl
  · intro t u1 u2 _ _ _ _; cases u1 <;> cases u2 <;> rfl
  · intro b u1 u2 _ _ _ _; cases u1 <;> cases u2 <;> rfl
  · intro u1 u2 _ _ _ _; cases u1 <;> cases u2 <;> rfl
  · intro m ihm u1 u2 hs h1 h2 hsafe
    cases u1 with
    | obj m1 =>
      cases u2 with
      | obj m2 =>
        simp only [safeV] at hsafe
        simp only [wfV, Bool.and_eq_true] at hs h1 h2
        rw [mergeJV_obj_obj, mergeJV_obj_obj, mergeJV_obj_obj, mergeJV_obj_obj]
        congr 1
        apply mergedicts_assoc_of_entries
        apply ihm m1 m2 hs.2
        · simp only [wfDict, Bool.and_eq_true]; exact h1
        · simp only [wfDict, Bool.and_eq_true]; exact h2
        · exact hsafe
      | num a => rfl
      | str a => rfl
      | boolean a => rfl
      | null => rfl
    | num a =>
      cases u2 with
      | obj m2 => simp [safeV] at hsafe
      | num b => rfl
      | str b => rfl
      | boolean b => rfl
      | null => rfl
    | str a =>
      cases u2 with
      | obj m2 => simp [safeV] at hsafe
      | num b => rfl
      | str b => rfl
      | boolean b => rfl
      | null => rfl
    | boolean a =>
      cases u2 with
      | obj m2 => simp [safeV] at hsafe
      | num b => rfl
      | str b => rfl
      | boolean b => rfl
      | null => rfl
    | null =>
      cases u2 with
      | obj m2 => simp [safeV] at hsafe
      | num b => rfl
      | str b => rfl
      | boolean b => rfl
      | null => rfl
  · intro U1 U2 _ _ _ _; rfl
  · intro k sv rest Psv Qrest U1 U2 hwS h1 h2 hsafe
    simp only [wfL, Bool.and_eq_true] at hwS
    simp only [safeD, Bool.and_eq_true] at hsafe
    obtain ⟨hsafe1, hsafe2⟩ := hsafe
    have hwU1 : wfL U1 = true := by
      simp only [wfDict, Bool.and_eq_true] at h1
      exact h1.2
    have hwU2 : wfL U2 = true := by
      simp only [wfDict, Bool.and_eq_true] at h2
      exact h2.2
    have hC : ∀ k2, lookupJ k2 (mergedicts U1 U2) =
        specMergeValue (lookupJ k2 U1) (lookupJ k2 U2) :=
      lookupJ_mergedicts U2 hwU1
    simp only [mergeEntries]
    rw [hC k]
    cases hU1 : lookupJ k U1 with
    | some u1 =>
      have hwfu1 : wfV u1 = true := wfL_lookup hwU1 hU1
      cases hU2 : lookupJ k U2 with
      | some u2 =>
        have hwfu2 : wfV u2 = true := wfL_lookup hwU2 hU2
        rw [specMergeValue_some_some]
        rw [hU1, hU2] at hsafe1
        congr 1
        · congr 1
          exact Psv u1 u2 hwS.1 hwfu1 hwfu2 hsafe1
        · exact Qrest U1 U2 hwS.2 h1 h2 hsafe2
      | none =>
        rw [specMergeValue_some_none]
        congr 1
        · congr 1
          exact mergeJV_self (mergeJV_wf hwS.1 hwfu1)
        · exact Qrest U1 U2 hwS.2 h1 h2 hsafe2
    | none =>
      cases hU2 : lookupJ k U2 with
      | some u2 =>
        rw [specMergeValue_none]
        congr 1
        · congr 1
          rw [mergeJV_self hwS.1]
        · exact Qrest U1 U2 hwS.2 h1 h2 hsafe2
      | none =>
        rw [specMergeValue_none]
        congr 1
        · congr 1
          rw [mergeJV_self hwS.1, mergeJV_self hwS.1]
        · exact Qrest U1 U2 hwS.2 h1 h2 hsafe2

/-! ## Claim theorems -/

/-- Claim C2: for every pair of mappings, the status merge returns a mapping
in which, for each key of the update, the value is the recursive merge
whenever both sides hold a mapping there and otherwise the incoming value,
while keys present only in the existing mapping keep their existing value
(key-wise characterization through `specMergeValue`); and the two concrete
examples of the specification hold.  The embedding is a pure function, so
neither input is mutated. -/
theorem mergedicts_deep_merge_spec :
    (∀ d1 d2 : List (String × JVal), ∀ k : String, wfL d1 = true →
      lookupJ k (mergedicts d1 d2) = specMergeValue (lookupJ k d1) (lookupJ k d2))
    ∧ mergedicts [("a", JVal.obj [("x", JVal.num 1), ("y", JVal.num 2)])]
        [("a", JVal.obj [("y", JVal.num 3)])]
      = [("a", JVal.obj [("x", JVal.num 1), ("y", JVal.num 3)])]
    ∧ mergedicts [("a", JVal.obj [("x", JVal.num 1), ("y", JVal.num 2)])]
        [("a", JVal.obj [("z", JVal.num 4)]), ("b", JVal.num 5)]
      = [("a", JVal.obj [("x", JVal.num 1), ("y", JVal.num 2), ("z", JVal.num 4)]),
         ("b", JVal.num 5)] :=
  ⟨fun _ d2 k h => lookupJ_mergedicts d2 h k, rfl, rfl⟩

/-- Witness for C2 at a concrete input. -/
theorem mergedicts_deep_merge_spec_witness :
    wfL [("a", JVal.obj [("x", JVal.num 1)])] = true ∧
    lookupJ "a" (mergedicts [("a", JVal.obj [("x", JVal.num 1)])] [("b", JVal.num 2)]) =
      specMergeValue (lookupJ "a" [("a", JVal.obj [("x", JVal.num 1)])])
        (lookupJ "a" [("b", JVal.num 2)]) :=
  ⟨rfl, mergedicts_deep_merge_spec.1 [("a", JVal.obj [("x", JVal.num 1)])]
    [("b", JVal.num 2)] "a" rfl⟩

/-- Claim C3 counterexample: merging sequentially is NOT equal to a single
merge with the key-wise last-write-wins combination of the two updates.  With
S holding a mapping at key a, U1 overwriting it with a scalar and U2 writing a
mapping again, the sequential result drops S's nested key x while the single
merge with the combined update (here the deep merge of U1 and U2, in which
U2's values win at common leaves) resurrects it. -/
theorem mergedicts_assoc_cex :
    mergedicts
        (mergedicts [("a", JVal.obj [("x", JVal.num 1)])] [("a", JVal.num 2)])
        [("a", JVal.obj [("y", JVal.num 3)])]
      ≠
      mergedicts [("a", JVal.obj [("x", JVal.num 1)])]
        (mergedicts [("a", JVal.num 2)] [("a", JVal.obj [("y", JVal.num 3)])]) := by
  simp [mergedicts, mergeEntries, mergeJV, lookupJ, hasKey]

/-- Claim C3 (amended): sequential merges agree with the single combined merge
on every well-formed triple that is associativity-safe, i.e. in which the
first update never overwrites an existing mapping with a non-mapping at a path
where the second update supplies a mapping. -/
theorem mergedicts_assoc_safe :
    ∀ S U1 U2 : List (String × JVal), wfDict S = true → wfDict U1 = true →
      wfDict U2 = true → safeD S U1 U2 = true →
      mergedicts (mergedicts S U1) U2 = mergedicts S (mergedicts U1 U2) := by
  intro S U1 U2 hS h1 h2 hsafe
  apply mergedicts_assoc_of_entries
  apply merge_assoc_all.2 S U1 U2 _ h1 h2 hsafe
  simp only [wfDict, Bool.and_eq_true] at hS
  exact hS.2

/-- Witness for the amended C3 on the specification's own example triple. -/
theorem mergedicts_assoc_safe_witness :
    wfDict [("a", JVal.obj [("x", JVal.num 1), ("y", JVal.num 2)])] = true ∧
    safeD [("a", JVal.obj [("x", JVal.num 1), ("y", JVal.num 2)])]
      [("a", JVal.obj [("y", JVal.num 3)])]
      [("a", JVal.obj [("z", JVal.num 4)]), ("b", JVal.num 5)] = true ∧
    mergedicts
        (mergedicts [("a", JVal.obj [("x", JVal.num 1), ("y", JVal.num 2)])]
          [("a", JVal.obj [("y", JVal.num 3)])])
        [("a", JVal.obj [("z", JVal.num 4)]), ("b", JVal.num 5)]
      = mergedicts [("a", JVal.obj [("x", JVal.num 1), ("y", JVal.num 2)])]
          (mergedicts [("a", JVal.obj [("y", JVal.num 3)])]
            [("a", JVal.obj [("z", JVal.num 4)]), ("b", JVal.num 5)]) :=
  ⟨rfl, rfl, mergedicts_assoc_safe _ _ _ rfl rfl rfl rfl⟩

/-- Claim C1 counterexample: on a freshly constructed controller that has
never completed initialization, the `connected` and `last_error` accessors
return values instead of failing with NotReady. -/
theorem connected_accessor_no_notready_cex :
    freshState.initialized = false ∧
    RpcDevice.connected freshState = Except.ok false ∧
    RpcDevice.last_error freshState = Except.ok none :=
  ⟨rfl, rfl, rfl⟩

/-- Claim C1 (amended): while initialization has never completed, the status,
event, config, profile and profiles accessors fail with NotReady; the identity
accessor fails with NotReady exactly when no identity snapshot is cached —
when a snapshot is cached it is returned even though initialization never
completed, because the source tests `_shelly is None`, not the `initialized`
flag; and the connected and lastError accessors plainly return their values
without failing. -/
theorem accessors_before_init :
    ∀ st : DeviceState, st.initialized = false →
      RpcDevice.status st = Except.error ShellyErr.notInitialized ∧
      RpcDevice.event st = Except.error ShellyErr.notInitialized ∧
      RpcDevice.config st = Except.error ShellyErr.notInitialized ∧
      RpcDevice.profile st = Except.error ShellyErr.notInitialized ∧
      RpcDevice.profiles st = Except.error ShellyErr.notInitialized ∧
      (st.shelly = none → RpcDevice.shelly st = Except.error ShellyErr.notInitialized) ∧
      (∀ sh, st.shelly = some sh → RpcDevice.shelly st = Except.ok sh) ∧
      RpcDevice.connected st = Except.ok st.wsConnected ∧
      RpcDevice.last_error st = Except.ok st.lastError := by
  intro st h
  refine ⟨?_, ?_, ?_, ?_, ?_, ?_, ?_, rfl, rfl⟩
  · simp [RpcDevice.status, h]
  · simp [RpcDevice.event, h]
  · simp [RpcDevice.config, h]
  · simp [RpcDevice.profile, h]
  · simp [RpcDevice.profiles, h]
  · intro hs
    simp [RpcDevice.shelly, hs]
  · intro sh hs
    simp [RpcDevice.shelly, hs]

/-- Witness for the amended C1: on the fresh state the identity accessor fails
with NotReady, and on an uninitialized state holding a cached snapshot the
identity accessor returns the snapshot. -/
theorem accessors_before_init_witness :
    freshState.initialized = false ∧
    RpcDevice.status freshState = Except.error ShellyErr.notInitialized ∧
    RpcDevice.shelly freshState = Except.error ShellyErr.notInitialized ∧
    ({ freshState with shelly := some [("mac", JVal.str "A0")] } : DeviceState).initialized
      = false ∧
    RpcDevice.shelly { freshState with shelly := some [("mac", JVal.str "A0")] }
      = Except.ok [("mac", JVal.str "A0")] :=
  ⟨rfl, (accessors_before_init freshState rfl).1,
    (accessors_before_init freshState rfl).2.2.2.2.2.1 rfl,
    rfl,
    (accessors_before_init { freshState with shelly := some [("mac", JVal.str "A0")] }
        rfl).2.2.2.2.2.2.1 [("mac", JVal.str "A0")] rfl⟩

/-- Claim C5: a second initialize while one is in flight fails immediately
with the concurrent-initialization error, performs no RPC call, notifies no
subscriber and returns the state completely unchanged (so the pending call's
outcome, a function of that state and its own environment, is unaffected). -/
theorem initialize_concurrent_guard :
    ∀ (env : InitEnv) (st : DeviceState) (a : Bool), st.initializing = true →
      initialize_dev env st a =
        { state := st, raised := some ShellyErr.runtimeAlready,
          notifiedListener := false, disconnected := false, calls := [] } := by
  intro env st a h
  unfold initialize_dev
  rw [if_pos h]

/-- Witness for C5 on a busy state. -/
theorem initialize_concurrent_guard_witness :
    busyState.initializing = true ∧
    initialize_dev plainEnv busyState false =
      { state := busyState, raised := some ShellyErr.runtimeAlready,
        notifiedListener := false, disconnected := false, calls := [] } :=
  ⟨rfl, initialize_concurrent_guard plainEnv busyState false rfl⟩

/-- Claim C10 counterexample: an invocation rejected by the concurrency guard
raises and leaves the `initializing` flag True (it belongs to the pending
call), so the flag is not False after every invocation. -/
theorem initializing_flag_cex :
    (initialize_dev plainEnv busyState false).state.initializing = true := rfl

/-- Claim C10 (amended): after every invocation of initialize that passes the
concurrency guard — whether it returns normally or raises on any failure path
— the `initializing` flag is False, so no failed or completed initialization
can permanently cause later calls to be rejected. -/
theorem initializing_flag_cleared :
    ∀ (env : InitEnv) (st : DeviceState) (a : Bool), st.initializing = false →
      (initialize_dev env st a).state.initializing = false := by
  intro env st a h
  unfold initialize_dev
  rw [if_neg (by simp [h])]
  dsimp only
  rw [apply_ite InitResult.state, apply_ite DeviceState.initializing, ite_self]

/-- Witness for the amended C10. -/
theorem initializing_flag_cleared_witness :
    freshState.initializing = false ∧
    (initialize_dev plainEnv freshState false).state.initializing = false :=
  ⟨rfl, initializing_flag_cleared plainEnv freshState false rfl⟩

/-- Claim C9: when the cached identity declares no current profile (no
`profile` key), or when the declared profile already equals the requested
name, `set_profile` issues no RPC call, raises nothing and leaves the
controller state unchanged. -/
theorem set_profile_noop :
    ∀ (env : SetProfileEnv) (st : DeviceState) (name : String)
      (sh : List (String × JVal)), st.shelly = some sh →
      (lookupJ "profile" sh = none ∨ lookupJ "profile" sh = some (JVal.str name)) →
      set_profile env st name = some { state := st, raised := none, calls := [] } := by
  intro env st name sh hsh h
  unfold set_profile
  rw [hsh]
  rcases h with h | h
  · simp [h]
  · simp [h, truthy, isStr]

/-- Witness for C9 on a device whose profile already matches. -/
theorem set_profile_noop_witness :
    set_profile { setProfileCall := Except.ok [], probes := [], init := plainEnv }
        { freshState with shelly := some [("profile", JVal.str "switch")] } "switch" =
      some { state := { freshState with shelly := some [("profile", JVal.str "switch")] },
             raised := none, calls := [] } :=
  set_profile_noop _ _ "switch" [("profile", JVal.str "switch")] rfl (Or.inr rfl)

/-- Claim C4: the dispatcher's cache effect by message kind — a full-status
push replaces the cached Status wholesale; a partial-status push deep-merges
into the cached Status and mutates nothing when no prior Status exists; an
event push replaces the cached Event wholesale; a transport-closed signal
(params absent) and any unrecognized kind mutate no cached data. -/
theorem on_notification_cache_effects :
    ∀ (st : DeviceState) (method : String) (ps : List (String × JVal)),
      ((on_notification st "NotifyFullStatus" (some ps)).state = { st with status := some ps })
      ∧ ((on_notification st "NotifyStatus" (some ps)).state =
          match st.status with
          | some cur => { st with status := some (mergedicts cur ps) }
          | none => st)
      ∧ ((on_notification st "NotifyEvent" (some ps)).state = { st with event := some ps })
      ∧ ((on_notification st method none).state = st)
      ∧ (method ≠ "NotifyFullStatus" → method ≠ "NotifyStatus" → method ≠ "NotifyEvent" →
          (on_notification st method (some ps)).state = st) := by
  intro st method ps
  refine ⟨?_, ?_, ?_, ?_, ?_⟩
  · simp [on_notification, apply_ite NotifyResult.state]
  · cases hst : st.status with
    | none => simp [on_notification, apply_ite NotifyResult.state, hst]
    | some cur => simp [on_notification, apply_ite NotifyResult.state, hst]
  · simp [on_notification, apply_ite NotifyResult.state]
  · simp [on_notification, apply_ite NotifyResult.state, apply_ite Prod.fst]
  · intro h1 h2 h3
    simp [on_notification, apply_ite NotifyResult.state, h1, h2, h3]

/-- Witness for C4 on a concrete state and an unrecognized method. -/
theorem on_notification_cache_effects_witness :
    (on_notification freshState "NotifyOther" (some [])).state = freshState :=
  (on_notification_cache_effects freshState "NotifyOther" []).2.2.2.2
    (by decide) (by decide) (by decide)

/-- The notification dispatch tail (device.py lines 129-135): if the
subscriber was called, the state's `initialized` flag is set. -/
theorem dispatch_tail {st1 : DeviceState} {ut : RpcUpdateType}
    (h : (if st1.initializing = false ∧ st1.initialized = false then
            ({ state := st1, updateType := ut, spawnedInit := true,
               notifiedListener := false } : NotifyResult)
          else
            { state := st1, updateType := ut, spawnedInit := false,
              notifiedListener := st1.updateListener && st1.initialized }).notifiedListener
        = true) :
    (if st1.initializing = false ∧ st1.initialized = false then
       ({ state := st1, updateType := ut, spawnedInit := true,
          notifiedListener := false } : NotifyResult)
     else
       { state := st1, updateType := ut, spawnedInit := false,
         notifiedListener := st1.updateListener && st1.initialized }).state.initialized
      = true := by
  split at h
  · exact Bool.noConfusion h
  · rename_i hC
    rw [if_neg hC]
    simp only [Bool.and_eq_true] at h
    exact h.2

/-- The initialize notification tail (device.py lines 198-199): if the
INITIALIZED update was emitted, the run ended initialized with a registered
subscriber. -/
theorem init_notify_tail {c : Prop} [Decidable c] {stF : DeviceState}
    {r : Option ShellyErr} {d : Bool} {cs : List String}
    (hcimp : c → stF.initialized = true ∧ stF.updateListener = true)
    (h : (if c then
            ({ state := stF, raised := none, notifiedListener := true,
               disconnected := d, calls := cs } : InitResult)
          else
            { state := stF, raised := r, notifiedListener := false,
              disconnected := d, calls := cs }).notifiedListener = true) :
    (if c then
       ({ state := stF, raised := none, notifiedListener := true,
          disconnected := d, calls := cs } : InitResult)
     else
       { state := stF, raised := r, notifiedListener := false,
         disconnected := d, calls := cs }).state.initialized = true ∧
    (if c then
       ({ state := stF, raised := none, notifiedListener := true,
          disconnected := d, calls := cs } : InitResult)
     else
       { state := stF, raised := r, notifiedListener := false,
         disconnected := d, calls := cs }).state.updateListener = true := by
  split at h
  · rename_i hC
    have hcc := hcimp hC
    constructor
    · rw [if_pos hC]
      exact hcc.1
    · rw [if_pos hC]
      exact hcc.2
  · exact Bool.noConfusion h

/-- Claim C8: the subscriber callback is never invoked while the controller is
not initialized — the dispatcher notifies only when the (unchanged by it)
`initialized` flag is set, and `initialize` emits the Initialized update only
when a subscriber is registered and the run ended initialized. -/
theorem listener_only_when_initialized :
    (∀ (st : DeviceState) (method : String) (ps : Option (List (String × JVal))),
      (on_notification st method ps).notifiedListener = true →
      (on_notification st method ps).state.initialized = true)
    ∧ (∀ (env : InitEnv) (st : DeviceState) (a : Bool),
      (initialize_dev env st a).notifiedListener = true →
      (initialize_dev env st a).state.initialized = true ∧
      (initialize_dev env st a).state.updateListener = true) := by
  constructor
  · intro st method ps h
    unfold on_notification at h ⊢
    dsimp only at h ⊢
    exact dispatch_tail h
  · intro env st a h
    unfold initialize_dev at h ⊢
    by_cases hinit : st.initializing = true
    · rw [if_pos hinit] at h
      exact Bool.noConfusion h
    · rw [if_neg hinit] at h ⊢
      dsimp only at h ⊢
      exact init_notify_tail (fun hC => ⟨hC.2.2, hC.2.1⟩) h

/-- Witness for C8: a notification on an initialized, subscribed controller
and a successful initialize on a subscribed controller. -/
theorem listener_only_when_initialized_witness :
    (on_notification { freshState with initialized := true, updateListener := true }
        "NotifyOther" (some [])).state.initialized = true ∧
    (initialize_dev plainEnv { freshState with updateListener := true } false).state.initialized
      = true ∧
    (initialize_dev plainEnv { freshState with updateListener := true } false).state.updateListener
      = true :=
  ⟨listener_only_when_initialized.1
      { freshState with initialized := true, updateListener := true } "NotifyOther" (some []) rfl,
    (listener_only_when_initialized.2 plainEnv { freshState with updateListener := true } false rfl).1,
    (listener_only_when_initialized.2 plainEnv { freshState with updateListener := true } false rfl).2⟩

/-- `call_rpc` error bookkeeping only touches `lastError`. -/
theorem call_rpc_fst_status (st : DeviceState) (r : Except ShellyErr (List (String × JVal))) :
    (call_rpc st r).1.status = st.status := by
  unfold call_rpc
  cases r with
  | ok v => rfl
  | error e =>
    dsimp only
    split
    · rfl
    · split <;> rfl

/-- The profiles step does not touch the cached status. -/
theorem profiles_step_fst_status (env : InitEnv) (info : List (String × JVal))
    (st : DeviceState) : (profiles_step env info st).1.status = st.status := by
  have key : ∀ (s : DeviceState) (r2 : Except ShellyErr (List (String × JVal))),
      call_rpc st env.listProfiles = (s, r2) → s.status = st.status := by
    intro s r2 heq
    have h := call_rpc_fst_status st env.listProfiles
    rw [heq] at h
    exact h
  unfold profiles_step
  split
  · split
    · rename_i s e heq
      exact key s _ heq
    · rename_i s resp heq
      split
      · exact key s _ heq
      · exact key s _ heq
  · rfl

/-- The calls issued by the profiles step. -/
theorem profiles_step_calls (env : InitEnv) (info : List (String × JVal))
    (st : DeviceState) :
    (profiles_step env info st).2.2 = [] ∨
      (profiles_step env info st).2.2 = ["Shelly.ListProfiles"] := by
  unfold profiles_step
  split
  · split
    · right; rfl
    · split
      · right; rfl
      · right; rfl
  · left; rfl

/-- On a run of the `try`-block that completes, the full-status RPC is in the
trace exactly when the call is not lazy or no status was cached at entry. -/
theorem initialize_body_status_fetch (env : InitEnv) (st : DeviceState) (a : Bool)
    (hok : (initialize_body env st a).result = Except.ok ()) :
    ("Shelly.GetStatus" ∈ (initialize_body env st a).calls ↔
      (a = false ∨ st.status = none)) := by
  unfold initialize_body at hok ⊢
  cases hgi : env.get_info with
  | error e =>
    rw [hgi] at hok
    simp at hok
  | ok info =>
    rw [hgi] at hok
    dsimp only at hok ⊢
    cases hae : lookupJ "auth_en" info with
    | none =>
      rw [hae] at hok
      simp at hok
    | some authv =>
      rw [hae] at hok
      dsimp only at hok ⊢
      cases hauth : auth_step st.options info authv with
      | error e =>
        rw [hauth] at hok
        simp at hok
      | ok u =>
        rw [hauth] at hok
        dsimp only at hok ⊢
        cases hcon : env.connect with
        | error e =>
          rw [hcon] at hok
          simp at hok
        | ok u2 =>
          rw [hcon] at hok
          dsimp only at hok ⊢
          split at hok
          · simp at hok
          · rename_i st3 cfg hcfg
            have h3 : st3.status = st.status := by
              have h := congrArg (fun p => p.1.status) hcfg
              dsimp only at h
              rw [call_rpc_fst_status] at h
              exact h.symm
            split at hok
            · simp at hok
            · rename_i st5 u3 cs hprof
              have h5 : st5.status = st.status := by
                have h := congrArg (fun p => p.1.status) hprof
                dsimp only at h
                rw [profiles_step_fst_status] at h
                dsimp only at h
                rw [h3] at h
                exact h.symm
              have hcs : cs = [] ∨ cs = ["Shelly.ListProfiles"] := by
                have h := congrArg (fun p => p.2.2) hprof
                dsimp only at h
                rw [← h]
                exact profiles_step_calls env info _
              by_cases hif : (a = false ∨ st5.status.isNone = true)
              · rw [if_pos hif]
                constructor
                · intro _
                  rcases hif with hif | hif
                  · exact Or.inl hif
                  · right
                    rw [← h5]
                    exact Option.isNone_iff_eq_none.mp hif
                · intro _
                  rcases hst : call_rpc st5 env.getStatus with ⟨st6, r6⟩
                  cases r6 <;> simp
              · rw [if_neg hif]
                constructor
                · intro hmem
                  exfalso
                  rcases hcs with hcs | hcs <;> rw [hcs] at hmem <;> simp at hmem
                · intro hrhs
                  exfalso
                  apply hif
                  rcases hrhs with h | h
                  · exact Or.inl h
                  · right
                    rw [Option.isNone_iff_eq_none, h5]
                    exact h

/-- Claim C7: in a run of initialize whose try-block completes, the
full-Status fetch is skipped exactly when the call is lazy and a Status was
already cached: every non-lazy run fetches the full Status, and every lazy run
with no cached Status fetches it too. -/
theorem initialize_status_fetch_iff :
    ∀ (env : InitEnv) (st : DeviceState) (a : Bool), st.initializing = false →
      (initialize_body env { st with initializing := true, initialized := false } a).result
        = Except.ok () →
      ("Shelly.GetStatus" ∈ (initialize_dev env st a).calls ↔
        (a = false ∨ st.status = none)) := by
  intro env st a h0 hok
  have hcalls : (initialize_dev env st a).calls =
      (initialize_body env { st with initializing := true, initialized := false } a).calls := by
    unfold initialize_dev
    rw [if_neg (by simp [h0])]
    dsimp only
    rw [apply_ite InitResult.calls, ite_self]
  rw [hcalls]
  have h := initialize_body_status_fetch env
    { st with initializing := true, initialized := false } a hok
  simpa using h

/-- Witness for C7: a successful non-lazy run on a fresh state fetches the
full status. -/
theorem initialize_status_fetch_iff_witness :
    freshState.initializing = false ∧
    (initialize_body plainEnv
      { freshState with initializing := true, initialized := false } false).result
      = Except.ok () ∧
    ("Shelly.GetStatus" ∈ (initialize_dev plainEnv freshState false).calls ↔
      (false = false ∨ freshState.status = none)) :=
  ⟨rfl, rfl, initialize_status_fetch_iff plainEnv freshState false rfl rfl⟩

/-- Claim C6: an authentication failure during a lazy initialize does not
raise; the controller still ends Initialized, the error is stored in
LastError, and a subsequent read of Status or Config while no snapshot was
ever obtained fails with the auth error. -/
theorem initialize_lazy_auth_deferred :
    ∀ (env : InitEnv) (st : DeviceState), st.initializing = false →
      (initialize_body env { st with initializing := true, initialized := false } true).result
        = Except.error ShellyErr.invalidAuth →
      ((initialize_dev env st true).raised = none ∧
       (initialize_dev env st true).state.initialized = true ∧
       (initialize_dev env st true).state.lastError = some ShellyErr.invalidAuth ∧
       ((initialize_dev env st true).state.status = none →
         RpcDevice.status ((initialize_dev env st true).state) =
           Except.error ShellyErr.invalidAuth) ∧
       ((initialize_dev env st true).state.config = none →
         RpcDevice.config ((initialize_dev env st true).state) =
           Except.error ShellyErr.invalidAuth)) := by
  intro env st h0 hbody
  unfold initialize_dev
  rw [if_neg (by simp [h0])]
  dsimp only
  rw [hbody]
  dsimp only
  rw [if_neg (by simp : ¬ ((true : Bool) = false))]
  dsimp only
  refine ⟨?_, ?_, ?_, ?_, ?_⟩
  · rw [apply_ite InitResult.raised, ite_self]
  · rw [apply_ite InitResult.state, ite_self]
  · rw [apply_ite InitResult.state, ite_self]
  · intro hs
    rw [apply_ite InitResult.state, ite_self] at hs ⊢
    dsimp only at hs ⊢
    simp [RpcDevice.status, hs]
  · intro hs
    rw [apply_ite InitResult.state, ite_self] at hs ⊢
    dsimp only at hs ⊢
    simp [RpcDevice.config, hs]

/-- Witness for C6: lazy initialize against a device that requires auth while
no credentials are configured. -/
theorem initialize_lazy_auth_deferred_witness :
    freshState.initializing = false ∧
    (initialize_body
        { plainEnv with get_info := Except.ok [("auth_en", JVal.boolean true)] }
        { freshState with initializing := true, initialized := false } true).result
      = Except.error ShellyErr.invalidAuth ∧
    (initialize_dev { plainEnv with get_info := Except.ok [("auth_en", JVal.boolean true)] }
        freshState true).raised = none ∧
    (initialize_dev { plainEnv with get_info := Except.ok [("auth_en", JVal.boolean true)] }
        freshState true).state.initialized = true :=
  ⟨rfl, rfl,
    (initialize_lazy_auth_deferred
      { plainEnv with get_info := Except.ok [("auth_en", JVal.boolean true)] }
      freshState rfl rfl).1,
    (initialize_lazy_auth_deferred
      { plainEnv with get_info := Except.ok [("auth_en", JVal.boolean true)] }
      freshState rfl rfl).2.1⟩
